import Mathlib

/-!
Verification of the fly repository's core TCP service fabric against its
specification.  The development shallowly embeds three subsystems:

* the frame decoder (`src/tcptools/frame_decode/frame_decoder.go`),
* the connection manager (`src/tcptools/connect_manager/connect_manager.go`),
* the multi-tier cache (`src/cachetools/cache_tools.go`).

Bytes are modelled as `Nat`, Go byte slices as `List Nat`, Go `int` values
that are meaningfully negative as `Int`, fallible operations as
`Except`/`Option`.  Go slicing `b[i:j]` is modelled by `slice`, which
clamps; where the sources can execute a slice expression with faulting
bounds (a Go panic), a companion predicate (`parseBufferPanics`) flags
exactly those executions and the decode loop surfaces them as a
`panicked` outcome, so no crash of the program is collapsed into a normal
return.
-/

namespace Fly

/-! ## Frame decoder: data model -/

/-- Byte order selector, mirroring `binary.BigEndian` / `binary.LittleEndian`. -/
inductive ByteOrderM where
  | big
  | little
deriving DecidableEq, Repr

/-- `binary.ByteOrder.Uint16` on the first two bytes. -/
def byteOrderUint16 (bo : ByteOrderM) (d : List Nat) : Nat :=
  match bo with
  | .big => d.getD 0 0 * 256 + d.getD 1 0
  | .little => d.getD 1 0 * 256 + d.getD 0 0

/-- `binary.ByteOrder.Uint32` on the first four bytes. -/
def byteOrderUint32 (bo : ByteOrderM) (d : List Nat) : Nat :=
  match bo with
  | .big => ((d.getD 0 0 * 256 + d.getD 1 0) * 256 + d.getD 2 0) * 256 + d.getD 3 0
  | .little => ((d.getD 3 0 * 256 + d.getD 2 0) * 256 + d.getD 1 0) * 256 + d.getD 0 0

/-- `FrameConfig` from `frame_decoder.go`.  `EndBytes` is an `Option` because
the source distinguishes a nil end sentinel (`cfg.EndBytes != nil`) from an
empty one.  `FrameTotalLengthAdjust`, `ChecksumIndex` and `MaxFrameSize` may
be negative in Go and are kept as `Int`. -/
structure FrameConfig where
  StartBytes : List Nat
  EndBytes : Option (List Nat)
  ByteOrder : ByteOrderM
  FrameLengthOffset : Nat
  FrameLengthSize : Nat
  FrameTotalLengthAdjust : Int
  ChecksumIndex : Int
  ChecksumSize : Nat
  MaxFrameSize : Int
deriving DecidableEq, Repr

/-- `Frame` from `frame_decoder.go`.  The head/tail parser leaves `Length`
and `Checksum` nil, which `Option` captures. -/
structure Frame where
  RawData : List Nat
  Length : Option (List Nat)
  Body : List Nat
  Checksum : Option (List Nat)
deriving DecidableEq, Repr

/-- The two recoverable parse errors of the decoder
(`ErrInvalidFrame`, `ErrChecksumMismatch`). -/
inductive ParseError where
  | invalidFrame
  | checksumMismatch
deriving DecidableEq, Repr

/-- The `(frame, consumed, err)` triple returned by the internal parsers.
`consumed` is an `Int`: the source computes `len(buf)-len(startBytes)+1`,
which can be negative. -/
structure ParseResult where
  frame : Option Frame
  consumed : Int
  perr : Option ParseError
deriving DecidableEq, Repr

/-- Go slice expression `l[a:b]` (indices in range on all covered paths). -/
def slice (l : List Nat) (a b : Nat) : List Nat :=
  (l.take b).drop a

/-- `bytes.Index`: index of the first occurrence of `pat` in `s`
(`none` for Go's `-1`).  An empty pattern is found at index 0. -/
def bytesIndex (pat : List Nat) : List Nat → Option Nat
  | [] => if pat.isPrefixOf [] then some 0 else none
  | b :: t =>
    if pat.isPrefixOf (b :: t) then some 0
    else (bytesIndex pat t).map (· + 1)

/-- `readLength` from `frame_decoder.go` (the `switch` on the width is an
if-chain). -/
def readLength (data : List Nat) (cfg : FrameConfig) : Nat :=
  if data.length < cfg.FrameLengthSize then 0
  else if cfg.FrameLengthSize = 1 then data.getD 0 0
  else if cfg.FrameLengthSize = 2 then byteOrderUint16 cfg.ByteOrder data
  else if cfg.FrameLengthSize = 4 then byteOrderUint32 cfg.ByteOrder data
  else 0

/-- Frame construction in `parseBuffer`: raw data, length field, body
bounds (shrunk by the end sentinel when one is configured) and checksum
slice (negative checksum index counts from the frame end).  The `slice`
calls clamp; the source instead panics when the body interval is inverted
or the checksum interval leaves the frame — `tlvFrameFault` below flags
exactly those executions and the decode loop raises them as `panicked`. -/
def mkTlvFrame (buf : List Nat) (cfg : FrameConfig) (totalLen : Int) : ParseResult :=
  let frame := buf.take totalLen.toNat
  let bodyStart := cfg.FrameLengthOffset + cfg.FrameLengthSize
  let bodyEnd : Int := totalLen - (cfg.ChecksumSize : Int) -
    (match cfg.EndBytes with | none => 0 | some eb => (eb.length : Int))
  let checksumStart : Int :=
    if cfg.ChecksumIndex < 0 then (frame.length : Int) + cfg.ChecksumIndex
    else cfg.ChecksumIndex
  let checksumEnd : Int := checksumStart + (cfg.ChecksumSize : Int)
  ⟨some
    { RawData := frame
      Length := some (slice frame cfg.FrameLengthOffset
        (cfg.FrameLengthOffset + cfg.FrameLengthSize))
      Body := slice frame bodyStart bodyEnd.toNat
      Checksum := some (slice frame checksumStart.toNat checksumEnd.toNat) },
    totalLen, none⟩

/-- The tail of `parseBuffer` after the `len(buf) < totalLen` check: the
end-sentinel suffix test (`cfg.EndBytes != nil && !bytes.HasSuffix`)
followed by frame construction. -/
def mkTlvParsed (buf : List Nat) (cfg : FrameConfig) (totalLen : Int) : ParseResult :=
  match cfg.EndBytes with
  | some eb =>
    if eb.isSuffixOf (buf.take totalLen.toNat) = false then
      ⟨none, totalLen, some .invalidFrame⟩
    else mkTlvFrame buf cfg totalLen
  | none => mkTlvFrame buf cfg totalLen

/-- `parseBuffer` from `frame_decoder.go` (the TLV parser). -/
def parseBuffer (buf : List Nat) (cfg : FrameConfig) : ParseResult :=
  match bytesIndex cfg.StartBytes buf with
  | none =>
    ⟨none, (buf.length : Int) - (cfg.StartBytes.length : Int) + 1, some .invalidFrame⟩
  | some startIdx =>
    if 0 < startIdx then ⟨none, (startIdx : Int), some .invalidFrame⟩
    else
      let lengthEnd := cfg.FrameLengthOffset + cfg.FrameLengthSize
      if buf.length < lengthEnd then ⟨none, 0, none⟩
      else
        let frameLen := readLength (slice buf cfg.FrameLengthOffset lengthEnd) cfg
        let totalLen : Int := (frameLen : Int) + cfg.FrameTotalLengthAdjust
        if totalLen < (lengthEnd : Int) + (cfg.ChecksumSize : Int) then
          ⟨none, 1, some .invalidFrame⟩
        else if (buf.length : Int) < totalLen then ⟨none, 0, none⟩
        else mkTlvParsed buf cfg totalLen

/-- Whether the slice expressions of the frame construction fault for a
frame of `totalLen` bytes (the guards of `parseBuffer` guarantee
`lengthOffset + lengthWidth + checksumWidth ≤ totalLen ≤ len(buf)` here,
so `len(frame) = totalLen` and the length-field slice is always in
range).  `frame[bodyStart:bodyEnd]` panics in Go when the interval is
inverted — `parseBuffer` has no `bodyStart > bodyEnd` guard, unlike
`parseHeadTailBuffer`; `frame[checksumStart:checksumEnd]` panics when the
start is negative, and a checksum end beyond the frame reads whatever the
buffer's capacity holds (or panics past it) — all three are flagged as
faults. -/
def tlvFrameFault (cfg : FrameConfig) (totalLen : Int) : Bool :=
  let bodyStart := cfg.FrameLengthOffset + cfg.FrameLengthSize
  let bodyEnd : Int := totalLen - (cfg.ChecksumSize : Int) -
    (match cfg.EndBytes with | none => 0 | some eb => (eb.length : Int))
  let checksumStart : Int :=
    if cfg.ChecksumIndex < 0 then totalLen + cfg.ChecksumIndex
    else cfg.ChecksumIndex
  let checksumEnd : Int := checksumStart + (cfg.ChecksumSize : Int)
  decide (bodyEnd < (bodyStart : Int)) || decide (checksumStart < 0) ||
    decide (totalLen < checksumEnd)

/-- Whether this `parseBuffer` call reaches frame construction with
faulting slice bounds — i.e. whether the Go call panics instead of
returning.  Mirrors `parseBuffer`'s control flow: every early return is
panic-free; only the construction tail (after the end-sentinel suffix
test) can fault. -/
def parseBufferPanics (buf : List Nat) (cfg : FrameConfig) : Bool :=
  match bytesIndex cfg.StartBytes buf with
  | none => false
  | some startIdx =>
    if 0 < startIdx then false
    else
      let lengthEnd := cfg.FrameLengthOffset + cfg.FrameLengthSize
      if buf.length < lengthEnd then false
      else
        let frameLen := readLength (slice buf cfg.FrameLengthOffset lengthEnd) cfg
        let totalLen : Int := (frameLen : Int) + cfg.FrameTotalLengthAdjust
        if totalLen < (lengthEnd : Int) + (cfg.ChecksumSize : Int) then false
        else if (buf.length : Int) < totalLen then false
        else
          match cfg.EndBytes with
          | some eb =>
            if eb.isSuffixOf (buf.take totalLen.toNat) = false then false
            else tlvFrameFault cfg totalLen
          | none => tlvFrameFault cfg totalLen

/-- `parseHeadTailBuffer` from `frame_decoder.go`.  `len(cfg.EndBytes)`
treats a nil and an empty sentinel alike, hence `getD []`. -/
def parseHeadTailBuffer (buf : List Nat) (cfg : FrameConfig) : ParseResult :=
  let startLen := cfg.StartBytes.length
  let endBs := cfg.EndBytes.getD []
  let endLen := endBs.length
  if startLen = 0 ∧ endLen = 0 then ⟨none, 0, some .invalidFrame⟩
  else if startLen = 0 then
    -- case 1: only EndBytes set
    match bytesIndex endBs buf with
    | none => ⟨none, 0, none⟩
    | some endIdx =>
      let frameEnd := endIdx + endLen
      let frameBytes := buf.take frameEnd
      let bodyEnd := endIdx
      ⟨some
        { RawData := frameBytes
          Length := none
          Body := frameBytes.take bodyEnd
          Checksum := none },
        (frameEnd : Int), none⟩
  else if endLen = 0 then
    -- case 2: only StartBytes set
    match bytesIndex cfg.StartBytes buf with
    | none => ⟨none, (buf.length : Int) - (startLen : Int) + 1, some .invalidFrame⟩
    | some startIdx =>
      if 0 < startIdx then ⟨none, (startIdx : Int), some .invalidFrame⟩
      else
        let searchStart := startIdx + startLen
        match bytesIndex cfg.StartBytes (buf.drop searchStart) with
        | none => ⟨none, 0, none⟩
        | some nextRel =>
          let nextStart := searchStart + nextRel
          let frameBytes := slice buf startIdx nextStart
          let bodyStart := startIdx + startLen
          let bodyEnd := nextStart
          if bodyEnd < bodyStart then ⟨none, 1, some .invalidFrame⟩
          else
            ⟨some
              { RawData := frameBytes
                Length := none
                Body := slice frameBytes (bodyStart - startIdx) (bodyEnd - startIdx)
                Checksum := none },
              (nextStart : Int), none⟩
  else
    -- case 3: both sentinels set
    match bytesIndex cfg.StartBytes buf with
    | none => ⟨none, (buf.length : Int) - (startLen : Int) + 1, some .invalidFrame⟩
    | some startIdx =>
      if 0 < startIdx then ⟨none, (startIdx : Int), some .invalidFrame⟩
      else
        let searchStart := startIdx + startLen
        match bytesIndex endBs (buf.drop searchStart) with
        | none => ⟨none, 0, none⟩
        | some endRel =>
          let endIdx := searchStart + endRel + endLen
          let frameBytes := slice buf startIdx endIdx
          let bodyStart := startIdx + startLen
          let bodyEnd := endIdx - endLen
          if bodyEnd < bodyStart then ⟨none, 1, some .invalidFrame⟩
          else
            ⟨some
              { RawData := frameBytes
                Length := none
                Body := slice frameBytes (bodyStart - startIdx) (bodyEnd - startIdx)
                Checksum := none },
              (endIdx : Int), none⟩

/-! ## Frame decoder: the TLV decode loop

`conn.Read` is modelled by a list of read events; each event delivers a
chunk of bytes together with the error value returned by that read
(`conn.Read` may return both).  The loop body of `tlvDecodeFrame` drains
the buffer, then inspects the read error, then checks the overflow bound,
exactly as the source does.  Running out of events models a decoder still
blocked in `Read`. -/

/-- The error component of a `conn.Read` result: `io.EOF` or another error
(identified by a numeric code). -/
inductive ReadErr where
  | eof
  | other (code : Nat)
deriving DecidableEq, Repr

/-- One `conn.Read` result: the bytes delivered and the error returned. -/
structure ReadEvent where
  chunk : List Nat
  err : Option ReadErr
deriving DecidableEq, Repr

/-- Result of the decode loop.  `parseFatal` is the `return perr` branch of
the source (reachable only for a parse error that is neither
`ErrInvalidFrame` nor `ErrChecksumMismatch`); `diverged` models the inner
loop spinning without consuming input (the source would never return);
`needMore` models a decoder still blocked reading; `panicked` models a
slice-bounds fault inside frame construction (`parseBufferPanics`) — in
Go a panic that escapes the decode loop. -/
inductive DecodeResult where
  | ok
  | ioError (code : Nat)
  | overflow
  | parseFatal (e : ParseError)
  | needMore
  | diverged
  | panicked
deriving DecidableEq, Repr

/-- `buf = buf[consumed:]` with an `Int` count (the source only executes it
with `0 < consumed`). -/
def intDrop (l : List Nat) (n : Int) : List Nat :=
  l.drop n.toNat

/-- Outcome of the inner `for` loop of `tlvDecodeFrame`: the remaining
buffer and the frames delivered to the handler, a fatal parse error, or
fuel exhaustion (no progress). -/
inductive DrainOut where
  | done (buf : List Nat) (delivered : List Frame)
  | fatal (e : ParseError)
  | outOfFuel
  | panicked
deriving DecidableEq, Repr

/-- The inner `for` loop of `tlvDecodeFrame`: repeatedly parse the buffer;
on a frame, consume it and (if the checksum validates) deliver it; on a
recoverable parse error with positive `consumed`, skip and retry; otherwise
stop.  `fuel` bounds the iteration count; one unit per byte of buffer plus
one suffices whenever the configuration can make progress. -/
def drainLoop (cfg : FrameConfig) (validate : Frame → Bool) :
    Nat → List Nat → List Frame → DrainOut
  | 0, _, _ => .outOfFuel
  | fuel + 1, buf, acc =>
    if parseBufferPanics buf cfg then .panicked
    else
    let r := parseBuffer buf cfg
    match r.frame with
    | some f =>
      let buf1 := intDrop buf r.consumed
      if validate f then drainLoop cfg validate fuel buf1 (acc ++ [f])
      else drainLoop cfg validate fuel buf1 acc
    | none =>
      match r.perr with
      | some e =>
        if e = ParseError.invalidFrame ∨ e = ParseError.checksumMismatch then
          if 0 < r.consumed then drainLoop cfg validate fuel (intDrop buf r.consumed) acc
          else .done buf acc
        else .fatal e
      | none => .done buf acc

/-- `maxSize` as computed at the top of `tlvDecodeFrame`
(`defaultMaxFrameSize = 64 * 1024` when the configured bound is ≤ 0). -/
def tlvMaxSize (cfg : FrameConfig) : Int :=
  if cfg.MaxFrameSize ≤ 0 then 64 * 1024 else cfg.MaxFrameSize

/-- The outer loop of `tlvDecodeFrame`, instrumented to also return the
final buffer.  Per event: append the chunk, drain the buffer, then handle
the read error (`io.EOF` returns success, anything else returns the
error), then check `len(buf) > maxSize*4`. -/
def tlvDecodeRun (cfg : FrameConfig) (validate : Frame → Bool) :
    List Nat → List ReadEvent → DecodeResult × List Nat
  | buf, [] => (.needMore, buf)
  | buf, ev :: rest =>
    let buf1 := buf ++ ev.chunk
    match drainLoop cfg validate (buf1.length + 1) buf1 [] with
    | .outOfFuel => (.diverged, buf1)
    | .fatal e => (.parseFatal e, buf1)
    | .panicked => (.panicked, buf1)
    | .done buf2 _delivered =>
      match ev.err with
      | some .eof => (.ok, buf2)
      | some (.other c) => (.ioError c, buf2)
      | none =>
        if tlvMaxSize cfg * 4 < (buf2.length : Int) then (.overflow, buf2)
        else tlvDecodeRun cfg validate buf2 rest

/-- `tlvDecodeFrame` from `frame_decoder.go`, starting from an empty buffer. -/
def tlvDecodeFrame (cfg : FrameConfig) (validate : Frame → Bool)
    (events : List ReadEvent) : DecodeResult × List Nat :=
  tlvDecodeRun cfg validate [] events

/-! ## Frame decoder: basic lemmas -/

theorem bytesIndex_nil_left (s : List Nat) : bytesIndex [] s = some 0 := by
  cases s <;> simp [bytesIndex, List.isPrefixOf]

theorem bytesIndex_of_isPrefixOf {pat s : List Nat} (h : pat.isPrefixOf s = true) :
    bytesIndex pat s = some 0 := by
  cases s <;> simp [bytesIndex, h]

theorem bytesIndex_le {pat s : List Nat} {i : Nat} (h : bytesIndex pat s = some i) :
    i ≤ s.length := by
  induction s generalizing i with
  | nil =>
    simp only [bytesIndex] at h
    split at h
    · cases h; exact Nat.le_refl 0
    · exact Option.noConfusion h
  | cons b t ih =>
    simp only [bytesIndex] at h
    split at h
    · cases h; exact Nat.zero_le _
    · rcases Option.map_eq_some'.mp h with ⟨j, hj, rfl⟩
      simpa using Nat.succ_le_succ (ih hj)

theorem bytesIndex_ne_none_of_nil {s : List Nat} {pat : List Nat}
    (h : bytesIndex pat s = none) : pat ≠ [] := by
  intro hp
  rw [hp, bytesIndex_nil_left] at h
  exact Option.noConfusion h

theorem slice_length {l : List Nat} {a b : Nat} (hb : b ≤ l.length) :
    (slice l a b).length = b - a := by
  simp [slice, Nat.min_eq_left hb]

theorem mkTlvFrame_shape (buf : List Nat) (cfg : FrameConfig) (t : Int) :
    (mkTlvFrame buf cfg t).consumed = t ∧
    (mkTlvFrame buf cfg t).frame.isSome = true ∧
    (mkTlvFrame buf cfg t).perr = none := by
  constructor
  · rfl
  · exact ⟨rfl, rfl⟩

theorem mkTlvParsed_consumed (buf : List Nat) (cfg : FrameConfig) (t : Int) :
    (mkTlvParsed buf cfg t).consumed = t := by
  unfold mkTlvParsed
  split
  · split
    · rfl
    · exact (mkTlvFrame_shape buf cfg t).1
  · exact (mkTlvFrame_shape buf cfg t).1

/-- In every outcome of `parseBuffer`, the consumed count is at most the
buffer length, and an emitted frame consumes at least one byte.  The
hypothesis rules out configurations whose header region is empty (the
source cannot make progress on them). -/
theorem parseBuffer_progress (cfg : FrameConfig)
    (h : 0 < cfg.FrameLengthOffset + cfg.FrameLengthSize) (buf : List Nat) :
    (parseBuffer buf cfg).consumed ≤ (buf.length : Int) ∧
    ((parseBuffer buf cfg).frame.isSome = true → 1 ≤ (parseBuffer buf cfg).consumed) := by
  unfold parseBuffer
  cases hidx : bytesIndex cfg.StartBytes buf with
  | none =>
    have hpat : cfg.StartBytes ≠ [] := bytesIndex_ne_none_of_nil hidx
    have h1 : 1 ≤ cfg.StartBytes.length := by
      cases hsb : cfg.StartBytes with
      | nil => exact absurd hsb hpat
      | cons a l => simp
    refine ⟨?_, ?_⟩
    · simp only []
      omega
    · intro hfr
      simp at hfr
  | some i =>
    by_cases hi : 0 < i
    · have hle := bytesIndex_le hidx
      simp only [if_pos hi]
      exact ⟨by exact_mod_cast hle, by intro hfr; simp at hfr⟩
    · simp only [if_neg hi]
      by_cases hlen : buf.length < cfg.FrameLengthOffset + cfg.FrameLengthSize
      · simp only [if_pos hlen]
        exact ⟨by exact_mod_cast Nat.zero_le _, by intro hfr; simp at hfr⟩
      · simp only [if_neg hlen]
        set flen := readLength
          (slice buf cfg.FrameLengthOffset
            (cfg.FrameLengthOffset + cfg.FrameLengthSize)) cfg with hflen
        by_cases hsm : (flen : Int) + cfg.FrameTotalLengthAdjust <
            ((cfg.FrameLengthOffset + cfg.FrameLengthSize : Nat) : Int) +
              (cfg.ChecksumSize : Int)
        · simp only [if_pos hsm]
          refine ⟨?_, fun _ => le_refl 1⟩
          have : 1 ≤ buf.length := by omega
          exact_mod_cast this
        · simp only [if_neg hsm]
          by_cases hshort : (buf.length : Int) < (flen : Int) + cfg.FrameTotalLengthAdjust
          · simp only [if_pos hshort]
            exact ⟨by exact_mod_cast Nat.zero_le _, by intro hfr; simp at hfr⟩
          · simp only [if_neg hshort]
            have hcons := mkTlvParsed_consumed buf cfg
              ((flen : Int) + cfg.FrameTotalLengthAdjust)
            refine ⟨?_, fun _ => ?_⟩
            · rw [hcons]; omega
            · rw [hcons]; omega

/-! ## Frame decoder: the decode loop never leaks framing errors -/

theorem intDrop_length_lt {l : List Nat} {n : Int} (h1 : 1 ≤ n)
    (h2 : n ≤ (l.length : Int)) : (intDrop l n).length < l.length := by
  have hn : 1 ≤ n.toNat := by omega
  have hl : n.toNat ≤ l.length := by omega
  simp only [intDrop, List.length_drop]
  omega

/-- The `return perr` arm of the inner loop is dead: the parsers only ever
produce `ErrInvalidFrame` or `ErrChecksumMismatch`, which the loop always
treats as recoverable. -/
theorem drainLoop_ne_fatal (cfg : FrameConfig) (v : Frame → Bool) :
    ∀ fuel buf acc e, drainLoop cfg v fuel buf acc ≠ .fatal e := by
  intro fuel
  induction fuel with
  | zero => intro buf acc e h; simp [drainLoop] at h
  | succ n ih =>
    intro buf acc e h
    simp only [drainLoop] at h
    by_cases hpk : parseBufferPanics buf cfg = true
    · rw [if_pos hpk] at h
      exact DrainOut.noConfusion h
    · rw [if_neg hpk] at h
      rcases hf : (parseBuffer buf cfg).frame with _ | f
      · rw [hf] at h
        rcases hp : (parseBuffer buf cfg).perr with _ | e'
        · rw [hp] at h
          simp at h
        · rw [hp] at h
          simp only [] at h
          split at h
          · split at h
            · exact ih _ _ _ h
            · simp at h
          · rename_i hcond
            exact absurd (by cases e' <;> simp) hcond
      · rw [hf] at h
        simp only [] at h
        split at h
        · exact ih _ _ _ h
        · exact ih _ _ _ h

/-- With a nonempty header region the inner loop always terminates in
`done`, with a buffer no longer than it started with, given one unit of
fuel per buffer byte plus one. -/
theorem drainLoop_done (cfg : FrameConfig) (v : Frame → Bool)
    (h : 0 < cfg.FrameLengthOffset + cfg.FrameLengthSize)
    (hsafe : ∀ b, parseBufferPanics b cfg = false) :
    ∀ fuel buf acc, buf.length < fuel →
      ∃ b2 a2, drainLoop cfg v fuel buf acc = .done b2 a2 ∧ b2.length ≤ buf.length := by
  intro fuel
  induction fuel with
  | zero => intro buf acc hlt; omega
  | succ n ih =>
    intro buf acc hlt
    have hprog := parseBuffer_progress cfg h buf
    simp only [drainLoop]
    have hnp : ¬(parseBufferPanics buf cfg = true) := by
      rw [hsafe buf]
      simp
    rw [if_neg hnp]
    rcases hf : (parseBuffer buf cfg).frame with _ | f
    · rcases hp : (parseBuffer buf cfg).perr with _ | e
      · exact ⟨buf, acc, rfl, le_refl _⟩
      · simp only []
        have hcond : (e = ParseError.invalidFrame ∨ e = ParseError.checksumMismatch) := by
          cases e <;> simp
        rw [if_pos hcond]
        by_cases hc : 0 < (parseBuffer buf cfg).consumed
        · rw [if_pos hc]
          have hlt2 : (intDrop buf (parseBuffer buf cfg).consumed).length < buf.length :=
            intDrop_length_lt hc hprog.1
          obtain ⟨b2, a2, hdone, hle⟩ :=
            ih (intDrop buf (parseBuffer buf cfg).consumed) acc (by omega)
          exact ⟨b2, a2, hdone, le_trans hle (Nat.le_of_lt hlt2)⟩
        · rw [if_neg hc]
          exact ⟨buf, acc, rfl, le_refl _⟩
    · have h1 : 1 ≤ (parseBuffer buf cfg).consumed := hprog.2 (by rw [hf]; rfl)
      have hlt2 : (intDrop buf (parseBuffer buf cfg).consumed).length < buf.length :=
        intDrop_length_lt h1 hprog.1
      simp only []
      by_cases hv : v f
      · rw [if_pos hv]
        obtain ⟨b2, a2, hdone, hle⟩ :=
          ih (intDrop buf (parseBuffer buf cfg).consumed) (acc ++ [f]) (by omega)
        exact ⟨b2, a2, hdone, le_trans hle (Nat.le_of_lt hlt2)⟩
      · rw [if_neg hv]
        obtain ⟨b2, a2, hdone, hle⟩ :=
          ih (intDrop buf (parseBuffer buf cfg).consumed) acc (by omega)
        exact ⟨b2, a2, hdone, le_trans hle (Nat.le_of_lt hlt2)⟩

/-- The return contract of `tlvDecodeFrame`, indexed by the result and the
final buffer: success only arises from an end-of-stream read, an I/O error
return reproduces a non-end-of-stream read error from the stream, a
buffer-overflow return happens exactly at a drained buffer exceeding four
times the maximum frame size, and the loop never returns a framing or
checksum error, nor spins without progress. -/
def tlvResultSpec (cfg : FrameConfig) (events : List ReadEvent) :
    DecodeResult × List Nat → Prop
  | (.ok, _) => ∃ ev ∈ events, ev.err = some ReadErr.eof
  | (.ioError c, _) => ∃ ev ∈ events, ev.err = some (ReadErr.other c)
  | (.overflow, buf) => tlvMaxSize cfg * 4 < (buf.length : Int)
  | (.parseFatal _, _) => False
  | (.diverged, _) => False
  | (.needMore, _) => True
  | (.panicked, _) => False

theorem tlvResultSpec_mono (cfg : FrameConfig) (ev : ReadEvent)
    (events : List ReadEvent) (p : DecodeResult × List Nat)
    (h : tlvResultSpec cfg events p) : tlvResultSpec cfg (ev :: events) p := by
  rcases p with ⟨r, b⟩
  cases r with
  | ok =>
    obtain ⟨x, hx, he⟩ := h
    exact ⟨x, List.mem_cons_of_mem _ hx, he⟩
  | ioError c =>
    obtain ⟨x, hx, he⟩ := h
    exact ⟨x, List.mem_cons_of_mem _ hx, he⟩
  | overflow => exact h
  | parseFatal e => exact h
  | needMore => exact h
  | diverged => exact h
  | panicked => exact h

theorem tlvDecodeRun_spec (cfg : FrameConfig) (v : Frame → Bool)
    (h : 0 < cfg.FrameLengthOffset + cfg.FrameLengthSize)
    (hsafe : ∀ b, parseBufferPanics b cfg = false) :
    ∀ events buf, tlvResultSpec cfg events (tlvDecodeRun cfg v buf events) := by
  intro events
  induction events with
  | nil => intro buf; simp [tlvDecodeRun, tlvResultSpec]
  | cons ev rest ih =>
    intro buf
    simp only [tlvDecodeRun]
    obtain ⟨b2, a2, hdone, _⟩ :=
      drainLoop_done cfg v h hsafe ((buf ++ ev.chunk).length + 1) (buf ++ ev.chunk) []
        (Nat.lt_succ_self _)
    rw [hdone]
    rcases hev : ev.err with _ | er
    · simp only []
      by_cases hov : tlvMaxSize cfg * 4 < (b2.length : Int)
      · rw [if_pos hov]
        exact hov
      · rw [if_neg hov]
        exact tlvResultSpec_mono cfg ev rest _ (ih b2)
    · cases er with
      | eof => exact ⟨ev, List.mem_cons_self _ _, hev⟩
      | other c => exact ⟨ev, List.mem_cons_self _ _, hev⟩

/-! ## Frame decoder: claim theorems -/

/-- Spec-side definition (refinement target), following the specification's
words: "Decode the length field using the configured byte order", "Length
width must be 1, 2, or 4; any other value yields length = 0". -/
def specLengthValue (bo : ByteOrderM) (w : Nat) (d : List Nat) : Nat :=
  if w = 1 then d.getD 0 0
  else if w = 2 then byteOrderUint16 bo d
  else if w = 4 then byteOrderUint32 bo d
  else 0

/-- A framing configuration whose frame-construction slices are always in
range, for every frame the parser can build (`totalLen` ranges over
`[lengthEnd + checksumWidth, ∞)`): the body interval cannot invert (no end
sentinel, or a total-length adjustment covering header, checksum and
sentinel), and the checksum window lies inside the frame (a negative
checksum index within the trailer, or a nonnegative one within the
header). -/
@[reducible] def tlvSliceSafe (cfg : FrameConfig) : Prop :=
  (cfg.EndBytes = none ∨
    ((cfg.FrameLengthOffset + cfg.FrameLengthSize : Nat) : Int) +
      (cfg.ChecksumSize : Int) + ((cfg.EndBytes.getD []).length : Int) ≤
      cfg.FrameTotalLengthAdjust) ∧
  ((cfg.ChecksumIndex < 0 ∧
      -(((cfg.FrameLengthOffset + cfg.FrameLengthSize : Nat) : Int) +
        (cfg.ChecksumSize : Int)) ≤ cfg.ChecksumIndex ∧
      cfg.ChecksumIndex + (cfg.ChecksumSize : Int) ≤ 0) ∨
    (0 ≤ cfg.ChecksumIndex ∧
      cfg.ChecksumIndex ≤ ((cfg.FrameLengthOffset + cfg.FrameLengthSize : Nat) : Int)))

theorem tlvFrameFault_eq_false (cfg : FrameConfig) (totalLen : Int)
    (hs : tlvSliceSafe cfg)
    (htot : ((cfg.FrameLengthOffset + cfg.FrameLengthSize : Nat) : Int) +
      (cfg.ChecksumSize : Int) ≤ totalLen)
    (hge : cfg.FrameTotalLengthAdjust ≤ totalLen) :
    tlvFrameFault cfg totalLen = false := by
  obtain ⟨hend, hcs⟩ := hs
  unfold tlvFrameFault
  simp only [Bool.or_eq_false_iff, decide_eq_false_iff_not, not_lt]
  refine ⟨⟨?_, ?_⟩, ?_⟩
  · cases hE : cfg.EndBytes with
    | none =>
      simp only [hE]
      omega
    | some eb =>
      have hadj := hend.resolve_left (by simp [hE])
      rw [hE] at hadj
      simp only [Option.getD_some] at hadj
      simp only [hE]
      omega
  · by_cases hCI : cfg.ChecksumIndex < 0
    · rw [if_pos hCI]
      rcases hcs with ⟨h1, h2, h3⟩ | ⟨h1, h2⟩ <;> omega
    · rw [if_neg hCI]
      rcases hcs with ⟨h1, h2, h3⟩ | ⟨h1, h2⟩ <;> omega
  · by_cases hCI : cfg.ChecksumIndex < 0
    · rw [if_pos hCI]
      rcases hcs with ⟨h1, h2, h3⟩ | ⟨h1, h2⟩ <;> omega
    · rw [if_neg hCI]
      rcases hcs with ⟨h1, h2, h3⟩ | ⟨h1, h2⟩ <;> omega

/-- A slice-safe configuration never panics, on any buffer. -/
theorem parseBufferPanics_eq_false (cfg : FrameConfig) (hs : tlvSliceSafe cfg) :
    ∀ buf, parseBufferPanics buf cfg = false := by
  intro buf
  unfold parseBufferPanics
  cases hidx : bytesIndex cfg.StartBytes buf with
  | none => rfl
  | some i =>
    dsimp only
    by_cases hi : 0 < i
    · rw [if_pos hi]
    · rw [if_neg hi]
      by_cases hlen : buf.length < cfg.FrameLengthOffset + cfg.FrameLengthSize
      · rw [if_pos hlen]
      · rw [if_neg hlen]
        set flen := readLength
          (slice buf cfg.FrameLengthOffset
            (cfg.FrameLengthOffset + cfg.FrameLengthSize)) cfg with hflen
        by_cases hsm : (flen : Int) + cfg.FrameTotalLengthAdjust <
            ((cfg.FrameLengthOffset + cfg.FrameLengthSize : Nat) : Int) +
              (cfg.ChecksumSize : Int)
        · rw [if_pos hsm]
        · rw [if_neg hsm]
          by_cases hshort : (buf.length : Int) < (flen : Int) + cfg.FrameTotalLengthAdjust
          · rw [if_pos hshort]
          · rw [if_neg hshort]
            have htot : ((cfg.FrameLengthOffset + cfg.FrameLengthSize : Nat) : Int) +
                (cfg.ChecksumSize : Int) ≤ (flen : Int) + cfg.FrameTotalLengthAdjust := by
              omega
            have hge : cfg.FrameTotalLengthAdjust ≤
                (flen : Int) + cfg.FrameTotalLengthAdjust := by
              omega
            cases hE : cfg.EndBytes with
            | none => exact tlvFrameFault_eq_false cfg _ hs htot hge
            | some eb =>
              dsimp only
              split
              · rfl
              · exact tlvFrameFault_eq_false cfg _ hs htot hge

/-- C4 (amended): for a configuration with a nonempty header region whose
construction slices never fault, the TLV decode loop returns success only
on an end-of-stream read, returns a non-end-of-stream read error as that
I/O error, returns buffer-overflow exactly with the drained buffer above
four times the maximum frame size, and never returns an invalid-frame or
checksum error, never spins, and never panics.  Outside that domain the
claimed contract is false: when a parsed frame's end sentinel overlaps the
header and checksum region, the source panics on `frame[bodyStart:bodyEnd]`
instead of returning (see the counterexample); configurations with an
empty header region cannot make progress. -/
theorem C4_decode_loop_error_contract (cfg : FrameConfig) (v : Frame → Bool)
    (events : List ReadEvent)
    (h : 0 < cfg.FrameLengthOffset + cfg.FrameLengthSize)
    (hsafe : ∀ b, parseBufferPanics b cfg = false) :
    tlvResultSpec cfg events (tlvDecodeFrame cfg v events) :=
  tlvDecodeRun_spec cfg v h hsafe events []

/-- The always-true checksum validator, used for concrete runs. -/
def vTrue : Frame → Bool := fun _ => true

/-- A concrete TLV configuration: empty start sentinel, one-byte length
field at offset 0, no adjustment, no checksum, no end sentinel. -/
def cfgW4 : FrameConfig :=
  { StartBytes := [], EndBytes := none, ByteOrder := .big,
    FrameLengthOffset := 0, FrameLengthSize := 1, FrameTotalLengthAdjust := 0,
    ChecksumIndex := 0, ChecksumSize := 0, MaxFrameSize := 0 }

/-- A concrete read stream: one three-byte chunk, then end-of-stream. -/
def eventsW4 : List ReadEvent := [⟨[3, 7, 9], some .eof⟩]

theorem C4_decode_loop_error_contract_witness :
    (0 < cfgW4.FrameLengthOffset + cfgW4.FrameLengthSize ∧ tlvSliceSafe cfgW4) ∧
    tlvResultSpec cfgW4 eventsW4 (tlvDecodeFrame cfgW4 vTrue eventsW4) :=
  ⟨⟨by decide, by decide⟩,
    C4_decode_loop_error_contract cfgW4 vTrue eventsW4 (by decide)
      (parseBufferPanics_eq_false cfgW4 (by decide))⟩

/-- A configuration on which the source's decode loop can panic: end
sentinel `[5]`, length width 1 at offset 0, total-length adjustment −4, no
checksum. -/
def cfgP : FrameConfig :=
  { StartBytes := [], EndBytes := some [5], ByteOrder := .big,
    FrameLengthOffset := 0, FrameLengthSize := 1, FrameTotalLengthAdjust := -4,
    ChecksumIndex := 0, ChecksumSize := 0, MaxFrameSize := 0 }

/-- C4 counterexample: within the claim's quantified domain (nonempty
header region; a stream reporting end-of-stream), the byte `[5]` parses to
`totalLen = 1` with the end sentinel `[5]` matching, and the source
computes `frame[1:0]` — a slice-bounds panic (`parseBuffer` lacks the
`bodyStart > bodyEnd` guard its head/tail sibling has).  The decode loop
therefore panics instead of returning nil at end-of-stream, refuting the
claimed return contract. -/
theorem C4_counterexample :
    0 < cfgP.FrameLengthOffset + cfgP.FrameLengthSize ∧
    parseBufferPanics [5] cfgP = true ∧
    tlvDecodeFrame cfgP vTrue [⟨[5], some ReadErr.eof⟩] =
      (DecodeResult.panicked, [5]) := by
  decide

/-- C5 (amended): with the start sentinel aligned at position 0 and at
least `lengthOffset + lengthWidth` bytes buffered, the length field is
decoded with the configured byte order for widths 1, 2 and 4 and as 0 for
any other width; whenever `length + totalLengthAdjust` is below
`lengthOffset + lengthWidth + checksumWidth`, the parser reports an
invalid frame and consumes exactly one byte.  A width outside {1,2,4} is
treated as malformed only when `totalLengthAdjust` itself is below that
minimum (amendment; see the counterexample for the unconditional reading). -/
theorem C5_length_decode_and_minimum (cfg : FrameConfig) (buf : List Nat)
    (h1 : cfg.StartBytes.isPrefixOf buf = true)
    (h2 : cfg.FrameLengthOffset + cfg.FrameLengthSize ≤ buf.length) :
    readLength (slice buf cfg.FrameLengthOffset
        (cfg.FrameLengthOffset + cfg.FrameLengthSize)) cfg =
      specLengthValue cfg.ByteOrder cfg.FrameLengthSize
        (slice buf cfg.FrameLengthOffset
          (cfg.FrameLengthOffset + cfg.FrameLengthSize)) ∧
    (((readLength (slice buf cfg.FrameLengthOffset
          (cfg.FrameLengthOffset + cfg.FrameLengthSize)) cfg : Int) +
        cfg.FrameTotalLengthAdjust <
        ((cfg.FrameLengthOffset + cfg.FrameLengthSize : Nat) : Int) +
          (cfg.ChecksumSize : Int)) →
      parseBuffer buf cfg = ⟨none, 1, some .invalidFrame⟩) ∧
    (cfg.FrameLengthSize ≠ 1 → cfg.FrameLengthSize ≠ 2 → cfg.FrameLengthSize ≠ 4 →
      cfg.FrameTotalLengthAdjust <
        ((cfg.FrameLengthOffset + cfg.FrameLengthSize : Nat) : Int) +
          (cfg.ChecksumSize : Int) →
      parseBuffer buf cfg = ⟨none, 1, some .invalidFrame⟩) := by
  have hlen : (slice buf cfg.FrameLengthOffset
      (cfg.FrameLengthOffset + cfg.FrameLengthSize)).length = cfg.FrameLengthSize := by
    rw [slice_length h2]
    omega
  have hguard : ¬((slice buf cfg.FrameLengthOffset
      (cfg.FrameLengthOffset + cfg.FrameLengthSize)).length < cfg.FrameLengthSize) := by
    rw [hlen]
    omega
  have hA : readLength (slice buf cfg.FrameLengthOffset
      (cfg.FrameLengthOffset + cfg.FrameLengthSize)) cfg =
      specLengthValue cfg.ByteOrder cfg.FrameLengthSize
        (slice buf cfg.FrameLengthOffset
          (cfg.FrameLengthOffset + cfg.FrameLengthSize)) := by
    unfold readLength specLengthValue
    rw [if_neg hguard]
  have hB : ((readLength (slice buf cfg.FrameLengthOffset
        (cfg.FrameLengthOffset + cfg.FrameLengthSize)) cfg : Int) +
        cfg.FrameTotalLengthAdjust <
        ((cfg.FrameLengthOffset + cfg.FrameLengthSize : Nat) : Int) +
          (cfg.ChecksumSize : Int)) →
      parseBuffer buf cfg = ⟨none, 1, some .invalidFrame⟩ := by
    intro h3
    unfold parseBuffer
    rw [bytesIndex_of_isPrefixOf h1]
    simp only [lt_irrefl, if_false, if_neg (not_lt.mpr h2), if_pos h3]
  refine ⟨hA, hB, ?_⟩
  intro hw1 hw2 hw4 hadj
  have h0 : readLength (slice buf cfg.FrameLengthOffset
      (cfg.FrameLengthOffset + cfg.FrameLengthSize)) cfg = 0 := by
    rw [hA]
    unfold specLengthValue
    rw [if_neg hw1, if_neg hw2, if_neg hw4]
  apply hB
  rw [h0]
  omega

/-- Concrete configuration refuting the unconditional parenthetical of C5:
length width 3 with a large positive total-length adjustment. -/
def cfgX : FrameConfig :=
  { StartBytes := [7], EndBytes := none, ByteOrder := .big,
    FrameLengthOffset := 1, FrameLengthSize := 3, FrameTotalLengthAdjust := 6,
    ChecksumIndex := 0, ChecksumSize := 0, MaxFrameSize := 0 }

/-- Concrete buffer for `cfgX`. -/
def bufX : List Nat := [7, 1, 2, 3, 9, 9]

/-- C5 counterexample: under the claim's own premises (sentinel at
position 0, header fully buffered) a length width of 3 is *not* treated as
malformed — `parseBuffer` emits a 6-byte frame with no error and a 6-byte
advance, because the total-length adjustment keeps the total above the
minimum. -/
theorem C5_counterexample :
    cfgX.FrameLengthSize = 3 ∧
    cfgX.StartBytes.isPrefixOf bufX = true ∧
    cfgX.FrameLengthOffset + cfgX.FrameLengthSize ≤ bufX.length ∧
    (parseBuffer bufX cfgX).perr = none ∧
    (parseBuffer bufX cfgX).consumed = 6 ∧
    (parseBuffer bufX cfgX).frame.isSome = true := by
  decide

/-- Concrete inputs for the C5 witness. -/
def cfgW5 : FrameConfig :=
  { StartBytes := [7], EndBytes := none, ByteOrder := .big,
    FrameLengthOffset := 1, FrameLengthSize := 1, FrameTotalLengthAdjust := 0,
    ChecksumIndex := 0, ChecksumSize := 0, MaxFrameSize := 0 }

/-- Concrete buffer for `cfgW5`. -/
def bufW5 : List Nat := [7, 5]

theorem C5_length_decode_and_minimum_witness :
    cfgW5.StartBytes.isPrefixOf bufW5 = true ∧
    cfgW5.FrameLengthOffset + cfgW5.FrameLengthSize ≤ bufW5.length ∧
    (readLength (slice bufW5 cfgW5.FrameLengthOffset
        (cfgW5.FrameLengthOffset + cfgW5.FrameLengthSize)) cfgW5 =
      specLengthValue cfgW5.ByteOrder cfgW5.FrameLengthSize
        (slice bufW5 cfgW5.FrameLengthOffset
          (cfgW5.FrameLengthOffset + cfgW5.FrameLengthSize)) ∧
    (((readLength (slice bufW5 cfgW5.FrameLengthOffset
          (cfgW5.FrameLengthOffset + cfgW5.FrameLengthSize)) cfgW5 : Int) +
        cfgW5.FrameTotalLengthAdjust <
        ((cfgW5.FrameLengthOffset + cfgW5.FrameLengthSize : Nat) : Int) +
          (cfgW5.ChecksumSize : Int)) →
      parseBuffer bufW5 cfgW5 = ⟨none, 1, some .invalidFrame⟩) ∧
    (cfgW5.FrameLengthSize ≠ 1 → cfgW5.FrameLengthSize ≠ 2 → cfgW5.FrameLengthSize ≠ 4 →
      cfgW5.FrameTotalLengthAdjust <
        ((cfgW5.FrameLengthOffset + cfgW5.FrameLengthSize : Nat) : Int) +
          (cfgW5.ChecksumSize : Int) →
      parseBuffer bufW5 cfgW5 = ⟨none, 1, some .invalidFrame⟩)) :=
  ⟨by decide, by decide, C5_length_decode_and_minimum cfgW5 bufW5 (by decide) (by decide)⟩

/-- C7 (amended): an empty start sentinel in TLV mode is *not* a
configuration error: `bytes.Index` finds the empty sentinel at position 0,
so the parser proceeds to ordinary frame parsing (here: waiting for the
header when the buffer is shorter than the header region). -/
theorem C7_empty_sentinel_not_rejected (cfg : FrameConfig) (buf : List Nat)
    (h : cfg.StartBytes = []) :
    bytesIndex cfg.StartBytes buf = some 0 ∧
    (buf.length < cfg.FrameLengthOffset + cfg.FrameLengthSize →
      parseBuffer buf cfg = ⟨none, 0, none⟩) := by
  have hidx : bytesIndex cfg.StartBytes buf = some 0 := by
    rw [h]
    exact bytesIndex_nil_left buf
  refine ⟨hidx, fun hl => ?_⟩
  unfold parseBuffer
  rw [hidx]
  simp only [lt_irrefl, if_false, if_pos hl]

/-- C7 counterexample: a concrete TLV configuration with an empty start
sentinel on which the decoder parses a frame and returns success — no
configuration error is ever reported.  This refutes the claim that some
such configuration is rejected as a configuration error. -/
theorem C7_counterexample :
    cfgW4.StartBytes.length = 0 ∧
    (parseBuffer [3, 7, 9] cfgW4).frame.isSome = true ∧
    (parseBuffer [3, 7, 9] cfgW4).perr = none ∧
    tlvDecodeFrame cfgW4 vTrue eventsW4 = (DecodeResult.ok, []) := by
  decide

/-- Concrete inputs for the C7 witness. -/
def cfgW7 : FrameConfig :=
  { StartBytes := [], EndBytes := none, ByteOrder := .big,
    FrameLengthOffset := 2, FrameLengthSize := 2, FrameTotalLengthAdjust := 0,
    ChecksumIndex := 0, ChecksumSize := 0, MaxFrameSize := 0 }

theorem C7_empty_sentinel_not_rejected_witness :
    cfgW7.StartBytes = [] ∧
    (bytesIndex cfgW7.StartBytes [1] = some 0 ∧
      (([1] : List Nat).length < cfgW7.FrameLengthOffset + cfgW7.FrameLengthSize →
        parseBuffer [1] cfgW7 = ⟨none, 0, none⟩)) :=
  ⟨by decide, C7_empty_sentinel_not_rejected cfgW7 [1] (by decide)⟩

/-- C8: in HeadTail mode with only an end sentinel configured, a buffer
containing the sentinel yields a frame whose raw bytes are
`buf[0 .. endIdx + len(end))`, whose body is `buf[0 .. endIdx)` (first
occurrence), with no length or checksum fields, consuming exactly
`endIdx + len(end)` bytes; without an occurrence nothing is emitted and
nothing is consumed. -/
theorem C8_headtail_end_sentinel (cfg : FrameConfig) (buf : List Nat)
    (h1 : cfg.StartBytes.length = 0)
    (h2 : (cfg.EndBytes.getD []).length ≠ 0) :
    (∀ i, bytesIndex (cfg.EndBytes.getD []) buf = some i →
      parseHeadTailBuffer buf cfg =
        ⟨some
          { RawData := buf.take (i + (cfg.EndBytes.getD []).length)
            Length := none
            Body := buf.take i
            Checksum := none },
          ((i + (cfg.EndBytes.getD []).length : Nat) : Int), none⟩) ∧
    (bytesIndex (cfg.EndBytes.getD []) buf = none →
      parseHeadTailBuffer buf cfg = ⟨none, 0, none⟩) := by
  constructor
  · intro i hidx
    unfold parseHeadTailBuffer
    rw [if_neg (by omega), if_pos h1, hidx]
    have htake : (buf.take (i + (cfg.EndBytes.getD []).length)).take i = buf.take i := by
      rw [List.take_take, Nat.min_eq_left (Nat.le_add_right i _)]
    dsimp only
    rw [htake]
  · intro hidx
    unfold parseHeadTailBuffer
    rw [if_neg (by omega), if_pos h1, hidx]

/-- Concrete inputs for the C8 witness. -/
def cfgW8 : FrameConfig :=
  { StartBytes := [], EndBytes := some [9], ByteOrder := .big,
    FrameLengthOffset := 0, FrameLengthSize := 0, FrameTotalLengthAdjust := 0,
    ChecksumIndex := 0, ChecksumSize := 0, MaxFrameSize := 0 }

/-- Concrete buffer for `cfgW8`. -/
def bufW8 : List Nat := [1, 2, 9, 4]

theorem C8_headtail_end_sentinel_witness :
    cfgW8.StartBytes.length = 0 ∧
    (cfgW8.EndBytes.getD []).length ≠ 0 ∧
    ((∀ i, bytesIndex (cfgW8.EndBytes.getD []) bufW8 = some i →
      parseHeadTailBuffer bufW8 cfgW8 =
        ⟨some
          { RawData := bufW8.take (i + (cfgW8.EndBytes.getD []).length)
            Length := none
            Body := bufW8.take i
            Checksum := none },
          ((i + (cfgW8.EndBytes.getD []).length : Nat) : Int), none⟩) ∧
    (bytesIndex (cfgW8.EndBytes.getD []) bufW8 = none →
      parseHeadTailBuffer bufW8 cfgW8 = ⟨none, 0, none⟩)) :=
  ⟨by decide, by decide, C8_headtail_end_sentinel cfgW8 bufW8 (by decide) (by decide)⟩

/-! ## Connection manager: data model

From `connect_manager.go`.  Time is an abstract `Nat` of nanoseconds; the
listener and goroutines are elided, and the administrative operations are
modelled as a sequential step function.  Because a caller may retain a
`*ConnContext` after the record has been deleted from the table, the state
keeps every record ever registered, with an `inTable` flag distinguishing
table membership; `closeOnceDone` is the `sync.Once` latch. -/

/-- `ConnState` from `connect_manager.go`. -/
inductive ConnStateM where
  | active
  | idle
  | kicked
  | closed
deriving DecidableEq, Repr

/-- Disconnect reasons (`ErrIdleTimeout`, `ErrServerClosed`, and
caller-supplied errors identified by a code). -/
inductive Reason where
  | idleTimeoutR
  | serverClosedR
  | otherR (code : Nat)
deriving DecidableEq, Repr

/-- `ConnContext`: id, last-active stamp, state, tag map (assoc list),
the `closeOnce` latch, whether the underlying conn was closed, and whether
the record is still in the server's table. -/
structure ConnRecord where
  id : String
  lastActive : Nat
  state : ConnStateM
  tags : List (String × String)
  closeOnceDone : Bool
  connClosed : Bool
  inTable : Bool
deriving DecidableEq, Repr

/-- The manager state: configuration (`idleTimeout`), every record ever
registered, the three metrics counters (`active`, `idle`, `kicked`), and
the log of `OnDisconnect` invocations. -/
structure ServerState where
  idleTimeout : Int
  records : List ConnRecord
  active : Int
  idleCount : Int
  kicked : Int
  disconnects : List (String × Reason)
deriving DecidableEq, Repr

/-- Table/pool lookup by id (ids are unique under the invariant). -/
def findRecord (s : ServerState) (id : String) : Option ConnRecord :=
  s.records.find? (fun r => r.id == id)

/-- Lookup restricted to the table (`s.conns[id]` in the source). -/
def findInTable (s : ServerState) (id : String) : Option ConnRecord :=
  s.records.find? (fun r => r.inTable && r.id == id)

/-- The body of the `closeOnce.Do` thunk as applied to the record itself:
set the terminal state, close the underlying conn, leave the table. -/
def closeRecord (kick : Bool) (r : ConnRecord) : ConnRecord :=
  { r with
    closeOnceDone := true
    connClosed := true
    inTable := false
    state := if kick then .kicked else .closed }

/-- The per-record update applied to the table on teardown: the record
with the given id receives the `closeRecord` effect, all others are left
alone. -/
def tearFun (kick : Bool) (id : String) (q : ConnRecord) : ConnRecord :=
  if q.id == id then closeRecord kick q else q

/-- `closeConn` / `kickConn` (and their `Locked` variants, whose bodies are
identical): a one-shot teardown guarded by the record's `closeOnce` latch.
The first invocation sets the terminal state, closes the conn, deletes the
record from the table, decrements `active` (incrementing `kicked` on a
kick) and appends one `OnDisconnect` invocation; later invocations do
nothing. -/
def connTeardown (kick : Bool) (id : String) (reason : Reason)
    (s : ServerState) : ServerState :=
  match findRecord s id with
  | none => s
  | some r =>
    if r.closeOnceDone then s
    else
      { s with
        records := s.records.map (tearFun kick id)
        active := s.active - 1
        kicked := if kick then s.kicked + 1 else s.kicked
        disconnects := s.disconnects ++ [(id, reason)] }

/-- `register`: insert the accepted record into the table and increment
`active`.  `generateID` produces fresh ids; re-registering an existing id
cannot occur and is modelled as a no-op. -/
def registerConn (id : String) (now : Nat) (s : ServerState) : ServerState :=
  match findRecord s id with
  | some _ => s
  | none =>
    { s with
      records := s.records ++
        [{ id := id, lastActive := now, state := .active, tags := [],
           closeOnceDone := false, connClosed := false, inTable := true }]
      active := s.active + 1 }

/-- `Touch`: refresh the last-active stamp and set the state to active
(operates on the record object, table membership notwithstanding). -/
def touchConn (id : String) (now : Nat) (s : ServerState) : ServerState :=
  { s with
    records := s.records.map (fun q =>
      if q.id == id then { q with lastActive := now, state := .active } else q) }

/-- `SetTag`: map assignment on the record's tag map. -/
def setTagConn (id k v : String) (s : ServerState) : ServerState :=
  { s with
    records := s.records.map (fun q =>
      if q.id == id then
        { q with tags := (k, v) :: q.tags.filter (fun p => ¬(p.1 == k)) }
      else q) }

/-- `GetTag` on a record. -/
def getTag (r : ConnRecord) (k : String) : Option String :=
  (r.tags.find? (fun p => p.1 == k)).map (fun p => p.2)

/-- Ids currently in the table. -/
def tableIds (s : ServerState) : List String :=
  (s.records.filter (fun r => r.inTable)).map (fun r => r.id)

/-- `CloseByID`: table lookup, then `closeConn` on the found record. -/
def closeByID (id : String) (reason : Reason) (s : ServerState) : ServerState :=
  match findInTable s id with
  | none => s
  | some _ => connTeardown false id reason s

/-- `KickByID`: table lookup, then `kickConn`. -/
def kickByID (id : String) (reason : Reason) (s : ServerState) : ServerState :=
  match findInTable s id with
  | none => s
  | some _ => connTeardown true id reason s

/-- `KickAll`: kick every record in the table. -/
def kickAllOp (reason : Reason) (s : ServerState) : ServerState :=
  (tableIds s).foldl (fun st i => connTeardown true i reason st) s

/-- `KickByTag`: kick every table record whose tag `k` equals `v`. -/
def kickByTagOp (k v : String) (reason : Reason) (s : ServerState) : ServerState :=
  ((s.records.filter (fun r => r.inTable && (getTag r k == some v))).map
      (fun r => r.id)).foldl
    (fun st i => connTeardown true i reason st) s

/-- `reapIdle`: disabled for a non-positive idle timeout; otherwise kick
every table record silent for longer than the timeout, with reason
`ErrIdleTimeout` (via `kickConnLocked`). -/
def reapIdleOp (now : Nat) (s : ServerState) : ServerState :=
  if s.idleTimeout ≤ 0 then s
  else
    ((s.records.filter (fun r =>
        r.inTable && decide (s.idleTimeout < (now : Int) - (r.lastActive : Int)))).map
      (fun r => r.id)).foldl
      (fun st i => connTeardown true i Reason.idleTimeoutR st) s

/-- `Stop`: close every table record with reason `ErrServerClosed`. -/
def stopOp (s : ServerState) : ServerState :=
  (tableIds s).foldl (fun st i => connTeardown false i Reason.serverClosedR st) s

/-- The administrative operations.  `closeConnDirect`/`kickConnDirect`
model a concurrent caller invoking `closeConn`/`kickConn` on a retained
record pointer (bypassing the table lookup). -/
inductive MgrOp where
  | register (id : String) (now : Nat)
  | touch (id : String) (now : Nat)
  | setTag (id k v : String)
  | closeById (id : String) (reason : Reason)
  | kickById (id : String) (reason : Reason)
  | closeConnDirect (id : String) (reason : Reason)
  | kickConnDirect (id : String) (reason : Reason)
  | kickAll (reason : Reason)
  | kickByTag (k v : String) (reason : Reason)
  | reapIdle (now : Nat)
  | stop
deriving DecidableEq, Repr

/-- One administrative step. -/
def mgrStep (op : MgrOp) (s : ServerState) : ServerState :=
  match op with
  | .register id now => registerConn id now s
  | .touch id now => touchConn id now s
  | .setTag id k v => setTagConn id k v s
  | .closeById id reason => closeByID id reason s
  | .kickById id reason => kickByID id reason s
  | .closeConnDirect id reason => connTeardown false id reason s
  | .kickConnDirect id reason => connTeardown true id reason s
  | .kickAll reason => kickAllOp reason s
  | .kickByTag k v reason => kickByTagOp k v reason s
  | .reapIdle now => reapIdleOp now s
  | .stop => stopOp s

/-- A sequence of administrative operations. -/
def runOps (s : ServerState) (ops : List MgrOp) : ServerState :=
  ops.foldl (fun st op => mgrStep op st) s

/-- Number of `OnDisconnect` invocations recorded for an id. -/
def disconnectCount (s : ServerState) (id : String) : Nat :=
  (s.disconnects.filter (fun p => p.1 == id)).length

/-- The manager invariant: record ids are unique; a record is in the table
exactly while its latch is unfired; `OnDisconnect` has fired exactly once
for a latched record and never for a live one; and every disconnect log
entry belongs to a registered record. -/
@[reducible] def MgrInv (s : ServerState) : Prop :=
  (s.records.map (fun r => r.id)).Nodup ∧
  (∀ r ∈ s.records, r.inTable = !r.closeOnceDone ∧
    disconnectCount s r.id = (if r.closeOnceDone then 1 else 0)) ∧
  (∀ p ∈ s.disconnects, ∃ r ∈ s.records, r.id = p.1)

/-! ## Connection manager: invariant lemmas -/

theorem closeRecord_id (kick : Bool) (r : ConnRecord) : (closeRecord kick r).id = r.id :=
  rfl

theorem findRecord_some {s : ServerState} {id : String} {r : ConnRecord}
    (h : findRecord s id = some r) : r ∈ s.records ∧ r.id = id := by
  refine ⟨List.mem_of_find?_eq_some h, ?_⟩
  have hp := List.find?_some h
  simpa using hp

theorem findRecord_none {s : ServerState} {id : String}
    (h : findRecord s id = none) : ∀ r ∈ s.records, r.id ≠ id := by
  intro r hr
  have := List.find?_eq_none.mp h r hr
  simpa using this

theorem record_unique {s : ServerState}
    (hnd : (s.records.map (fun r => r.id)).Nodup) {r q : ConnRecord}
    (hr : r ∈ s.records) (hq : q ∈ s.records) (hid : r.id = q.id) : r = q :=
  List.inj_on_of_nodup_map hnd hr hq hid

theorem map_ids_of_id_preserving (g : ConnRecord → ConnRecord)
    (hid : ∀ q, (g q).id = q.id) :
    ∀ l : List ConnRecord, (l.map g).map (fun r => r.id) = l.map (fun r => r.id) := by
  intro l
  induction l with
  | nil => rfl
  | cons a t ih => simp [hid, ih]

theorem disconnectCount_append (d : List (String × Reason)) (id x : String)
    (reason : Reason) :
    ((d ++ [(id, reason)]).filter (fun p => p.1 == x)).length =
      (d.filter (fun p => p.1 == x)).length + (if id = x then 1 else 0) := by
  by_cases h : id = x <;> simp [List.filter_append, h]

theorem tearFun_id (kick : Bool) (id : String) (q : ConnRecord) :
    (tearFun kick id q).id = q.id := by
  unfold tearFun
  split <;> rfl

theorem find?_map_tearFun (kick : Bool) (id : String) :
    ∀ (l : List ConnRecord) (r : ConnRecord),
      l.find? (fun q => q.id == id) = some r →
      (l.map (tearFun kick id)).find? (fun q => q.id == id) =
        some (closeRecord kick r) := by
  intro l
  induction l with
  | nil => intro r h; simp at h
  | cons a t ih =>
    intro r h
    by_cases ha : (a.id == id) = true
    · rw [List.find?_cons_of_pos (p := fun q => q.id == id) t ha] at h
      have har : a = r := by injection h
      subst har
      have hfa : tearFun kick id a = closeRecord kick a := by
        unfold tearFun
        rw [if_pos ha]
      have hpa : ((tearFun kick id a).id == id) = true := by
        rw [tearFun_id]
        exact ha
      simp only [List.map_cons]
      rw [List.find?_cons_of_pos (p := fun q : ConnRecord => q.id == id)
        (List.map (tearFun kick id) t) hpa, hfa]
    · rw [List.find?_cons_of_neg (p := fun q => q.id == id) t ha] at h
      have hpa : ¬(((tearFun kick id a).id == id) = true) := by
        rw [tearFun_id]
        exact ha
      simp only [List.map_cons]
      rw [List.find?_cons_of_neg (p := fun q : ConnRecord => q.id == id)
        (List.map (tearFun kick id) t) hpa]
      exact ih r h

/-- `connTeardown` preserves the manager invariant. -/
theorem mgrInv_teardown (kick : Bool) (id : String) (reason : Reason)
    (s : ServerState) (h : MgrInv s) : MgrInv (connTeardown kick id reason s) := by
  obtain ⟨hnd, hrec, hlog⟩ := h
  unfold connTeardown
  cases hf : findRecord s id with
  | none => exact ⟨hnd, hrec, hlog⟩
  | some r =>
    obtain ⟨hrmem, hrid⟩ := findRecord_some hf
    dsimp only
    by_cases hd : r.closeOnceDone = true
    · rw [if_pos hd]
      exact ⟨hnd, hrec, hlog⟩
    · rw [if_neg hd]
      have hrdone : r.closeOnceDone = false := by
        cases hv : r.closeOnceDone
        · rfl
        · exact absurd hv hd
      refine ⟨?_, ?_, ?_⟩
      · show ((s.records.map (tearFun kick id)).map (fun r => r.id)).Nodup
        rw [map_ids_of_id_preserving (tearFun kick id) (tearFun_id kick id) s.records]
        exact hnd
      · intro q' hq'
        simp only [List.mem_map] at hq'
        obtain ⟨q, hq, rfl⟩ := hq'
        by_cases hqid : (q.id == id) = true
        · have hqid' : q.id = id := by simpa using hqid
          have hqr : q = r := record_unique hnd hq hrmem (by rw [hqid', hrid])
          subst hqr
          have hft : tearFun kick id q = closeRecord kick q := by
            unfold tearFun
            rw [if_pos hqid]
          rw [hft]
          constructor
          · simp [closeRecord]
          · have hcnt0 : disconnectCount s q.id = 0 := by
              have := (hrec q hq).2
              rwa [hrdone, if_neg (by simp)] at this
            simp only [closeRecord, disconnectCount] at hcnt0 ⊢
            rw [disconnectCount_append s.disconnects id q.id reason] at *
            · simp only [hcnt0]
              rw [if_pos hqid'.symm]
              simp
        · have hft : tearFun kick id q = q := by
            unfold tearFun
            rw [if_neg hqid]
          rw [hft]
          have hq2 := hrec q hq
          refine ⟨hq2.1, ?_⟩
          have hqid' : ¬(id = q.id) := by
            intro he
            exact hqid (by simp [he])
          simp only [disconnectCount] at hq2 ⊢
          rw [disconnectCount_append s.disconnects id q.id reason, if_neg hqid']
          simpa using hq2.2
      · intro p hp
        simp only [List.mem_append, List.mem_singleton] at hp
        cases hp with
        | inl hold =>
          obtain ⟨r0, hr0, hr0id⟩ := hlog p hold
          exact ⟨tearFun kick id r0, List.mem_map_of_mem _ hr0,
            by rw [tearFun_id]; exact hr0id⟩
        | inr hnew =>
          subst hnew
          refine ⟨tearFun kick id r, List.mem_map_of_mem _ hrmem, ?_⟩
          rw [tearFun_id]
          exact hrid

theorem mgrInv_fold_teardown (kick : Bool) (reason : Reason) :
    ∀ (ids : List String) (s : ServerState), MgrInv s →
      MgrInv (ids.foldl (fun st i => connTeardown kick i reason st) s) := by
  intro ids
  induction ids with
  | nil => intro s h; exact h
  | cons i t ih =>
    intro s h
    exact ih _ (mgrInv_teardown kick i reason s h)

theorem mgrInv_map_preserve (s : ServerState) (g : ConnRecord → ConnRecord)
    (hid : ∀ q, (g q).id = q.id)
    (hdone : ∀ q, (g q).closeOnceDone = q.closeOnceDone)
    (hint : ∀ q, (g q).inTable = q.inTable)
    (h : MgrInv s) : MgrInv { s with records := s.records.map g } := by
  obtain ⟨hnd, hrec, hlog⟩ := h
  refine ⟨by simpa [map_ids_of_id_preserving g hid] using hnd, ?_, ?_⟩
  · intro q' hq'
    simp only [List.mem_map] at hq'
    obtain ⟨q, hq, rfl⟩ := hq'
    have hq2 := hrec q hq
    rw [hdone, hint, hid]
    exact hq2
  · intro p hp
    obtain ⟨r0, hr0, hr0id⟩ := hlog p hp
    exact ⟨g r0, List.mem_map_of_mem _ hr0, by rw [hid]; exact hr0id⟩

theorem mgrInv_register (id : String) (now : Nat) (s : ServerState)
    (h : MgrInv s) : MgrInv (registerConn id now s) := by
  obtain ⟨hnd, hrec, hlog⟩ := h
  unfold registerConn
  cases hf : findRecord s id with
  | some r => exact ⟨hnd, hrec, hlog⟩
  | none =>
    have hfresh : ∀ r ∈ s.records, r.id ≠ id := findRecord_none hf
    have hnotmem : id ∉ s.records.map (fun r => r.id) := by
      intro hmem
      obtain ⟨r0, hr0, hr0id⟩ := List.mem_map.mp hmem
      exact hfresh r0 hr0 hr0id
    have hlog0 : ∀ p ∈ s.disconnects, ¬(p.1 = id) := by
      intro p hp he
      obtain ⟨r0, hr0, hr0id⟩ := hlog p hp
      exact hfresh r0 hr0 (hr0id.trans he)
    refine ⟨?_, ?_, ?_⟩
    · rw [List.map_append]
      refine List.Nodup.append hnd (by simp) ?_
      intro x hx hxs
      simp only [List.map_cons, List.map_nil, List.mem_singleton] at hxs
      subst hxs
      exact hnotmem hx
    · intro q hq
      simp only [List.mem_append, List.mem_singleton] at hq
      cases hq with
      | inl hold => exact hrec q hold
      | inr hnew =>
        subst hnew
        refine ⟨rfl, ?_⟩
        simp only [disconnectCount]
        have : s.disconnects.filter (fun p => p.1 == id) = [] := by
          apply List.filter_eq_nil_iff.mpr
          intro p hp
          simpa using hlog0 p hp
        simp [this]
    · intro p hp
      obtain ⟨r0, hr0, hr0id⟩ := hlog p hp
      exact ⟨r0, List.mem_append_left _ hr0, hr0id⟩

theorem mgrInv_step (op : MgrOp) (s : ServerState) (h : MgrInv s) :
    MgrInv (mgrStep op s) := by
  cases op with
  | register id now => exact mgrInv_register id now s h
  | touch id now =>
    exact mgrInv_map_preserve s
      (fun q => if q.id == id then { q with lastActive := now, state := .active } else q)
      (fun q => by by_cases hq : (q.id == id) = true <;> simp [hq])
      (fun q => by by_cases hq : (q.id == id) = true <;> simp [hq])
      (fun q => by by_cases hq : (q.id == id) = true <;> simp [hq]) h
  | setTag id k v =>
    exact mgrInv_map_preserve s
      (fun q => if q.id == id then
        { q with tags := (k, v) :: q.tags.filter (fun p => ¬(p.1 == k)) } else q)
      (fun q => by by_cases hq : (q.id == id) = true <;> simp [hq])
      (fun q => by by_cases hq : (q.id == id) = true <;> simp [hq])
      (fun q => by by_cases hq : (q.id == id) = true <;> simp [hq]) h
  | closeById id reason =>
    simp only [mgrStep, closeByID]
    cases findInTable s id with
    | none => exact h
    | some r => exact mgrInv_teardown false id reason s h
  | kickById id reason =>
    simp only [mgrStep, kickByID]
    cases findInTable s id with
    | none => exact h
    | some r => exact mgrInv_teardown true id reason s h
  | closeConnDirect id reason => exact mgrInv_teardown false id reason s h
  | kickConnDirect id reason => exact mgrInv_teardown true id reason s h
  | kickAll reason => exact mgrInv_fold_teardown true reason (tableIds s) s h
  | kickByTag k v reason => exact mgrInv_fold_teardown true reason _ s h
  | reapIdle now =>
    simp only [mgrStep, reapIdleOp]
    split
    · exact h
    · exact mgrInv_fold_teardown true Reason.idleTimeoutR _ s h
  | stop => exact mgrInv_fold_teardown false Reason.serverClosedR (tableIds s) s h

theorem mgrInv_runOps (s : ServerState) (ops : List MgrOp) (h : MgrInv s) :
    MgrInv (runOps s ops) := by
  induction ops generalizing s with
  | nil => exact h
  | cons op t ih => exact ih (mgrStep op s) (mgrInv_step op s h)

/-! ## Connection manager: claim theorems -/

theorem connTeardown_done {s : ServerState} {id : String} {r : ConnRecord}
    (hf : findRecord s id = some r) (hd : r.closeOnceDone = true)
    (kick : Bool) (reason : Reason) : connTeardown kick id reason s = s := by
  unfold connTeardown
  rw [hf]
  dsimp only
  rw [if_pos hd]

theorem connTeardown_live {s : ServerState} {id : String} {r : ConnRecord}
    (hf : findRecord s id = some r) (hd : r.closeOnceDone = false)
    (kick : Bool) (reason : Reason) :
    connTeardown kick id reason s =
      { s with
        records := s.records.map (tearFun kick id)
        active := s.active - 1
        kicked := if kick then s.kicked + 1 else s.kicked
        disconnects := s.disconnects ++ [(id, reason)] } := by
  unfold connTeardown
  rw [hf]
  dsimp only
  rw [if_neg (by simp [hd])]

theorem findInTable_none_of_done {s : ServerState} {id : String} {r : ConnRecord}
    (h : MgrInv s) (hf : findRecord s id = some r) (hd : r.closeOnceDone = true) :
    findInTable s id = none := by
  obtain ⟨hnd, hrec, _⟩ := h
  obtain ⟨hrmem, hrid⟩ := findRecord_some hf
  apply List.find?_eq_none.mpr
  intro q hq hpq
  simp only [Bool.and_eq_true, beq_iff_eq] at hpq
  have hqr : q = r := record_unique hnd hq hrmem (by rw [hpq.2, hrid])
  subst hqr
  have := (hrec q hq).1
  rw [hd] at this
  rw [hpq.1] at this
  exact Bool.noConfusion this

/-- C1: registered records are torn down exactly once.  Over any sequence
of operations the invariant persists: `OnDisconnect` has fired exactly
once for every latched record and never for a live one.  The first
close/kick of a live record performs the teardown body (terminal state,
conn close, table removal, counter update, one `OnDisconnect`), and any
later close or kick of the same record — by id lookup or through a
retained pointer — leaves the state entirely unchanged. -/
theorem C1_teardown_exactly_once (s : ServerState) (ops : List MgrOp)
    (h : MgrInv s) :
    MgrInv (runOps s ops) ∧
    (∀ r ∈ (runOps s ops).records,
      disconnectCount (runOps s ops) r.id = (if r.closeOnceDone then 1 else 0)) ∧
    (∀ kick id reason r, findRecord s id = some r → r.closeOnceDone = false →
      findRecord (connTeardown kick id reason s) id = some (closeRecord kick r) ∧
      (connTeardown kick id reason s).active = s.active - 1 ∧
      (connTeardown kick id reason s).kicked =
        (if kick then s.kicked + 1 else s.kicked) ∧
      (connTeardown kick id reason s).disconnects = s.disconnects ++ [(id, reason)] ∧
      (closeRecord kick r).closeOnceDone = true ∧
      (closeRecord kick r).inTable = false ∧
      (closeRecord kick r).connClosed = true) ∧
    (∀ kick id reason r, findRecord s id = some r → r.closeOnceDone = true →
      connTeardown kick id reason s = s ∧
      closeByID id reason s = s ∧
      kickByID id reason s = s) := by
  have hinv := mgrInv_runOps s ops h
  refine ⟨hinv, ?_, ?_, ?_⟩
  · intro r hr
    exact (hinv.2.1 r hr).2
  · intro kick id reason r hf hd
    rw [connTeardown_live hf hd kick reason]
    refine ⟨?_, rfl, rfl, rfl, rfl, rfl, rfl⟩
    exact find?_map_tearFun kick id s.records r hf
  · intro kick id reason r hf hd
    have hnone := findInTable_none_of_done h hf hd
    refine ⟨connTeardown_done hf hd kick reason, ?_, ?_⟩
    · unfold closeByID
      rw [hnone]
    · unfold kickByID
      rw [hnone]

/-- A one-record manager state used for concrete runs: a single live
record `"a"`, last active at time 0, idle timeout 10. -/
def s9 : ServerState :=
  { idleTimeout := 10
    records := [{ id := "a", lastActive := 0, state := .active, tags := [],
                  closeOnceDone := false, connClosed := false, inTable := true }]
    active := 1
    idleCount := 0
    kicked := 0
    disconnects := [] }

/-- Concrete operation sequence for the C1 witness: register a record,
kick it, then try to close it again twice through different paths. -/
def opsW1 : List MgrOp :=
  [MgrOp.register "b" 0, MgrOp.kickById "b" (Reason.otherR 5),
   MgrOp.closeById "b" (Reason.otherR 6), MgrOp.closeConnDirect "b" (Reason.otherR 7)]

theorem C1_teardown_exactly_once_witness :
    MgrInv s9 ∧
    (MgrInv (runOps s9 opsW1) ∧
    (∀ r ∈ (runOps s9 opsW1).records,
      disconnectCount (runOps s9 opsW1) r.id = (if r.closeOnceDone then 1 else 0)) ∧
    (∀ kick id reason r, findRecord s9 id = some r → r.closeOnceDone = false →
      findRecord (connTeardown kick id reason s9) id = some (closeRecord kick r) ∧
      (connTeardown kick id reason s9).active = s9.active - 1 ∧
      (connTeardown kick id reason s9).kicked =
        (if kick then s9.kicked + 1 else s9.kicked) ∧
      (connTeardown kick id reason s9).disconnects = s9.disconnects ++ [(id, reason)] ∧
      (closeRecord kick r).closeOnceDone = true ∧
      (closeRecord kick r).inTable = false ∧
      (closeRecord kick r).connClosed = true) ∧
    (∀ kick id reason r, findRecord s9 id = some r → r.closeOnceDone = true →
      connTeardown kick id reason s9 = s9 ∧
      closeByID id reason s9 = s9 ∧
      kickByID id reason s9 = s9)) :=
  ⟨by decide, C1_teardown_exactly_once s9 opsW1 (by decide)⟩

/-- C3's model of `closeConn` with the `OnDisconnect` handler made
explicit: the handler may panic (`Except.error`); the state mutations
precede the handler call, and any panic propagates to the caller — there
is no `recover` in the source. -/
def closeConnWithHandler (kick : Bool) (handler : String → Reason → Except Nat Unit)
    (id : String) (reason : Reason) (s : ServerState) : ServerState × Option Nat :=
  match findRecord s id with
  | none => (s, none)
  | some r =>
    if r.closeOnceDone then (s, none)
    else
      (connTeardown kick id reason s,
        match handler id reason with
        | .ok _ => none
        | .error e => some e)

/-- C3 (amended): the manager state after `closeConn` is independent of
whether `OnDisconnect` returns or panics — the table deletion, counters
and latch are all updated before the handler runs — but a handler panic is
*not* recovered: it propagates out of the close/kick call. -/
theorem C3_state_safe_but_no_recover (kick : Bool)
    (handler : String → Reason → Except Nat Unit) (id : String) (reason : Reason)
    (s : ServerState) :
    (closeConnWithHandler kick handler id reason s).1 = connTeardown kick id reason s ∧
    (∀ e, (closeConnWithHandler kick handler id reason s).2 = some e →
      handler id reason = .error e) := by
  unfold closeConnWithHandler
  cases hf : findRecord s id with
  | none =>
    refine ⟨?_, ?_⟩
    · unfold connTeardown
      rw [hf]
    · intro e he
      exact Option.noConfusion he
  | some r =>
    dsimp only
    by_cases hd : r.closeOnceDone = true
    · rw [if_pos hd]
      refine ⟨(connTeardown_done hf hd kick reason).symm, ?_⟩
      intro e he
      exact Option.noConfusion he
    · rw [if_neg hd]
      refine ⟨rfl, ?_⟩
      intro e he
      cases hh : handler id reason with
      | ok u => rw [hh] at he; exact Option.noConfusion he
      | error e' =>
        rw [hh] at he
        have he' : e' = e := by injection he
        rw [he']

/-- A handler whose `OnDisconnect` panics (with code 42). -/
def panicH : String → Reason → Except Nat Unit := fun _ _ => .error 42

/-- C3 counterexample: with a panicking `OnDisconnect` handler, the panic
escapes `closeConn` (the second component is the propagated panic, not
`none`): the source has no `recover`, so the claim that panics are
recovered and logged is false. -/
theorem C3_counterexample :
    (closeConnWithHandler false panicH "a" (Reason.otherR 0) s9).2 = some 42 ∧
    ¬((closeConnWithHandler false panicH "a" (Reason.otherR 0) s9).2 = none) := by
  decide

/-- `connTeardown` never decreases `kicked` and never touches `idle`. -/
theorem connTeardown_counters (kick : Bool) (id : String) (reason : Reason)
    (s : ServerState) :
    s.kicked ≤ (connTeardown kick id reason s).kicked ∧
    (connTeardown kick id reason s).idleCount = s.idleCount := by
  unfold connTeardown
  cases findRecord s id with
  | none => exact ⟨le_refl _, rfl⟩
  | some r =>
    dsimp only
    by_cases hd : r.closeOnceDone = true
    · rw [if_pos hd]
      exact ⟨le_refl _, rfl⟩
    · rw [if_neg hd]
      refine ⟨?_, rfl⟩
      by_cases hk : kick = true
      · rw [if_pos hk]
        show s.kicked ≤ s.kicked + 1
        omega
      · rw [if_neg hk]

theorem fold_teardown_counters (kick : Bool) :
    ∀ (f : String → Reason) (ids : List String) (s : ServerState),
      s.kicked ≤ (ids.foldl (fun st i => connTeardown kick i (f i) st) s).kicked ∧
      (ids.foldl (fun st i => connTeardown kick i (f i) st) s).idleCount =
        s.idleCount := by
  intro f ids
  induction ids with
  | nil => intro s; exact ⟨le_refl _, rfl⟩
  | cons i t ih =>
    intro s
    have h1 := connTeardown_counters kick i (f i) s
    have h2 := ih (connTeardown kick i (f i) s)
    exact ⟨le_trans h1.1 h2.1, h2.2.trans h1.2⟩

theorem mgrStep_counters (op : MgrOp) (s : ServerState) :
    s.kicked ≤ (mgrStep op s).kicked ∧ (mgrStep op s).idleCount = s.idleCount := by
  cases op with
  | register id now =>
    simp only [mgrStep, registerConn]
    cases findRecord s id with
    | some r => exact ⟨le_refl _, rfl⟩
    | none => exact ⟨le_refl _, rfl⟩
  | touch id now => exact ⟨le_refl _, rfl⟩
  | setTag id k v => exact ⟨le_refl _, rfl⟩
  | closeById id reason =>
    simp only [mgrStep, closeByID]
    cases findInTable s id with
    | none => exact ⟨le_refl _, rfl⟩
    | some r => exact connTeardown_counters false id reason s
  | kickById id reason =>
    simp only [mgrStep, kickByID]
    cases findInTable s id with
    | none => exact ⟨le_refl _, rfl⟩
    | some r => exact connTeardown_counters true id reason s
  | closeConnDirect id reason => exact connTeardown_counters false id reason s
  | kickConnDirect id reason => exact connTeardown_counters true id reason s
  | kickAll reason => exact fold_teardown_counters true (fun _ => reason) _ s
  | kickByTag k v reason => exact fold_teardown_counters true (fun _ => reason) _ s
  | reapIdle now =>
    simp only [mgrStep, reapIdleOp]
    split
    · exact ⟨le_refl _, rfl⟩
    · exact fold_teardown_counters true (fun _ => Reason.idleTimeoutR) _ s
  | stop =>
    exact fold_teardown_counters false (fun _ => Reason.serverClosedR) (tableIds s) s

/-- C9 (amended): of the three metrics counters, only `kicked` is
monotonic — no operation decreases it; the idle-reclaim counter is never
updated by any operation (it stays constant); the active counter is *not*
monotonic (see the counterexample). -/
theorem C9_kicked_monotone_idle_constant (s : ServerState) (ops : List MgrOp) :
    s.kicked ≤ (runOps s ops).kicked ∧ (runOps s ops).idleCount = s.idleCount := by
  induction ops generalizing s with
  | nil => exact ⟨le_refl _, rfl⟩
  | cons op t ih =>
    have h1 := mgrStep_counters op s
    have h2 := ih (mgrStep op s)
    exact ⟨le_trans h1.1 h2.1, h2.2.trans h1.2⟩

/-- C9 counterexample: an idle reap on a stale record *decreases* the
active counter (1 to 0), so the counters are not all monotonic; and
although this reap is precisely an idle reclaim (the record is kicked with
reason idle-timeout), the idle-reclaim counter stays 0 — it is never
maintained. -/
theorem C9_counterexample :
    (runOps s9 [MgrOp.reapIdle 100]).active < s9.active ∧
    (runOps s9 [MgrOp.reapIdle 100]).kicked = s9.kicked + 1 ∧
    (runOps s9 [MgrOp.reapIdle 100]).idleCount = s9.idleCount ∧
    (runOps s9 [MgrOp.reapIdle 100]).disconnects = [("a", Reason.idleTimeoutR)] := by
  decide

/-! ## Multi-tier cache: data model

From `cache_tools.go`.  Durations are `Int` (Go `time.Duration`), redis
options are opaque (`Option Unit` distinguishes nil from non-nil), the
origin loader is tracked by presence, and the otter L1 builder — an
external library not in this repository — is modelled as succeeding. -/

/-- `CacheOption` with the loader tracked by presence. -/
structure CacheOption where
  PrefixKey : String
  Capacity : Int
  L1Enable : Bool
  L1CacheTTL : Int
  L2Enable : Bool
  L2Config : Option Unit
  L2CacheTTL : Int
  hasDirectFunc : Bool
  L3FlightErrContinue : Bool
deriving DecidableEq, Repr

/-- The defaults set at the top of `NewCacheBuilder` (TTLs in minutes). -/
def defaultCacheOption : CacheOption :=
  { PrefixKey := ""
    Capacity := 1000
    L1Enable := true
    L1CacheTTL := 5
    L2Enable := false
    L2Config := none
    L2CacheTTL := 10
    hasDirectFunc := false
    L3FlightErrContinue := false }

/-- `WithPrefixKey`. -/
def withPrefixKey (s : String) : CacheOption → CacheOption :=
  fun o => { o with PrefixKey := s }

/-- `WithL1Cache`. -/
def withL1Cache (enable : Bool) (capacity ttl : Int) : CacheOption → CacheOption :=
  fun o => { o with L1Enable := enable, L1CacheTTL := ttl, Capacity := capacity }

/-- `WithL2Cache` (sets the TTL and config even when disabling). -/
def withL2Cache (enable : Bool) (config : Option Unit) (ttl : Int) :
    CacheOption → CacheOption :=
  fun o => { o with L2Enable := enable, L2Config := config, L2CacheTTL := ttl }

/-- `WithDirectFunc`. -/
def withDirectFunc : CacheOption → CacheOption :=
  fun o => { o with hasDirectFunc := true }

/-- `WithL3FlightErrContinue`. -/
def withL3FlightErrContinue (con : Bool) : CacheOption → CacheOption :=
  fun o => { o with L3FlightErrContinue := con }

/-- Fold the option functions over the defaults. -/
def applyOpts (fs : List (CacheOption → CacheOption)) : CacheOption :=
  fs.foldl (fun o f => f o) defaultCacheOption

/-- The construction errors of `NewCacheBuilder`, in source order. -/
inductive BuildErr where
  | ttlOrder
  | missingPrefix
  | missingDirect
  | missingRedisConfig
deriving DecidableEq, Repr

/-- The `XCache` fields assigned by the constructor. -/
structure XCacheM where
  CachePrefixKey : String
  L1Enable : Bool
  L1CacheTTL : Int
  L2Enable : Bool
  L2CacheTTL : Int
  hasL1Client : Bool
  hasL2Client : Bool
  hasDirectFunc : Bool
  L3FlightErrContinue : Bool
deriving DecidableEq, Repr

/-- `NewCacheBuilder`: apply the options, then validate in source order —
the TTL-order check (`L2Enable && L1Enable && L2TTL != 0 && L2TTL < L1TTL`),
the prefix check, the loader check, then (after the L1 build, modelled as
succeeding) the redis-config check. -/
def buildFromOpt (opt : CacheOption) : Except BuildErr XCacheM :=
  if opt.L2Enable = true ∧ opt.L1Enable = true ∧ opt.L2CacheTTL ≠ 0 ∧
      opt.L2CacheTTL < opt.L1CacheTTL then
    .error .ttlOrder
  else if opt.PrefixKey = "" then .error .missingPrefix
  else if opt.hasDirectFunc = false then .error .missingDirect
  else if opt.L2Enable = true ∧ opt.L2Config = none then .error .missingRedisConfig
  else
    .ok
      { CachePrefixKey := opt.PrefixKey
        L1Enable := opt.L1Enable
        L1CacheTTL := opt.L1CacheTTL
        L2Enable := opt.L2Enable
        L2CacheTTL := opt.L2CacheTTL
        hasL1Client := opt.L1Enable
        hasL2Client := opt.L2Enable
        hasDirectFunc := opt.hasDirectFunc
        L3FlightErrContinue := opt.L3FlightErrContinue }

/-- `NewCacheBuilder`: apply the options, then validate. -/
def newCacheBuilder (fs : List (CacheOption → CacheOption)) :
    Except BuildErr XCacheM :=
  buildFromOpt (applyOpts fs)

/-- Whether construction failed. -/
def isErr (x : Except BuildErr XCacheM) : Bool :=
  match x with
  | .error _ => true
  | .ok _ => false

/-- `realKey`: the namespaced key `prefix:key`. -/
def realKey (pfx k : String) : String :=
  pfx ++ ":" ++ k

/-- The key under which `getFromL3WithSingleFlight` enters
`flightGroup.Do` (line 214: `xc.flightGroup.Do(realKey, ...)`). -/
def flightDoKey (pfx k : String) : String :=
  realKey pfx k

/-- The key the source passes to `flightGroup.Forget` on a loader error
with `L3FlightErrContinue` (line 218: `xc.flightGroup.Forget(key.ToString())`
— the *un-namespaced* key). -/
def l3ForgetKeyOnError (_pfx k : String) : String :=
  k

/-- The in-flight single-flight entries right after the loader's error
path inside the `Do` callback: with `L3FlightErrContinue` the source
forgets `l3ForgetKeyOnError`, otherwise it forgets nothing. -/
def groupAfterL3Error (errContinue : Bool) (pfx k : String)
    (inflight : List String) : List String :=
  if errContinue then inflight.erase (l3ForgetKeyOnError pfx k) else inflight

/-- The `set` errors of the cache. -/
inductive PutErr where
  | l1SetFailed
  | l2MarshalFailed
  | l2SetFailed
deriving DecidableEq, Repr

/-- Result of `put`: the returned error and which tier writes were
attempted. -/
structure PutOutcome where
  err : Option PutErr
  l1Written : Bool
  l2Written : Bool
deriving DecidableEq, Repr

/-- `put` from `cache_tools.go`, with the external effects (otter set
success, JSON marshal, redis set) supplied as oracles: early return when
both tiers are disabled; otherwise write L1 (collecting `l1Err`), then
marshal and write L2 (collecting `l2Err`), and return `l1Err` first,
else `l2Err`, else nil. -/
def put (l1Enable l2Enable : Bool) (l1SetOk : Bool)
    (marshal : Except Nat Unit) (l2Set : Except Nat Unit) : PutOutcome :=
  if l1Enable = false ∧ l2Enable = false then ⟨none, false, false⟩
  else
    let l1Err : Option PutErr :=
      if l1Enable = true ∧ l1SetOk = false then some .l1SetFailed else none
    let l2Pair : Option PutErr × Bool :=
      if l2Enable then
        match marshal with
        | .error _ => (some .l2MarshalFailed, false)
        | .ok _ =>
          match l2Set with
          | .error _ => (some .l2SetFailed, true)
          | .ok _ => (none, true)
      else (none, false)
    { err := match l1Err with | some e => some e | none => l2Pair.1
      l1Written := l1Enable
      l2Written := l2Pair.2 }

/-! ## Multi-tier cache: claim theorems -/

/-- The rejection condition of the constructor as the code implements it
(the amended C6 condition): empty prefix, missing loader, L2 enabled
without redis config, or — *with both tiers enabled* — a nonzero L2 TTL
strictly below the L1 TTL. -/
def buildRejects (opt : CacheOption) : Prop :=
  opt.PrefixKey = "" ∨ opt.hasDirectFunc = false ∨
    (opt.L2Enable = true ∧ opt.L2Config = none) ∨
    (opt.L1Enable = true ∧ opt.L2Enable = true ∧ opt.L2CacheTTL ≠ 0 ∧
      opt.L2CacheTTL < opt.L1CacheTTL)

/-- C6 (amended): the constructor returns an error exactly for the four
rejection conditions, with the TTL-order condition applying only when both
tiers are enabled (and only for a nonzero L2 TTL); every other option
combination yields a cache. -/
theorem C6_constructor_rejects_iff (fs : List (CacheOption → CacheOption)) :
    isErr (newCacheBuilder fs) = true ↔ buildRejects (applyOpts fs) := by
  unfold newCacheBuilder buildFromOpt buildRejects
  split_ifs with h1 h2 h3 h4 <;> simp only [isErr] <;>
    first
      | (simp only [true_iff]; tauto)
      | (simp only [Bool.false_eq_true, false_iff]; tauto)

/-- Options for the C6 counterexample: L1 on with TTL 5, L2 *disabled*
but with TTL 1 recorded, valid prefix and loader. -/
def c6opts : List (CacheOption → CacheOption) :=
  [withL1Cache true 10 5, withL2Cache false none 1, withPrefixKey "p", withDirectFunc]

/-- C6 counterexample: both TTLs are finite (nonzero) and the L2 TTL (1)
is strictly below the L1 TTL (5), while prefix and loader are present and
the L2-without-options condition does not apply — the claim therefore
predicts a construction error, yet the constructor succeeds, because the
source only enforces the TTL order when both tiers are enabled. -/
theorem C6_counterexample :
    (applyOpts c6opts).L2CacheTTL ≠ 0 ∧
    (applyOpts c6opts).L1CacheTTL ≠ 0 ∧
    (applyOpts c6opts).L2CacheTTL < (applyOpts c6opts).L1CacheTTL ∧
    (applyOpts c6opts).PrefixKey = "p" ∧
    (applyOpts c6opts).hasDirectFunc = true ∧
    (applyOpts c6opts).L2Enable = false ∧
    isErr (newCacheBuilder c6opts) = false := by
  decide

/-- C2: evaluated at the failing input (prefix `"p"`, key `"k"`,
`l3ErrContinue = true`, loader error).  `Do` is entered under the
namespaced key `"p:k"`, but the error path forgets the bare key `"k"`, so
the in-flight entry under the `Do` key survives — the single-flight entry
for the group key is *not* forgotten, contradicting the claim (and the
source's own documented intent for `L3FlightErrContinue`). -/
theorem C2_forget_wrong_key :
    flightDoKey "p" "k" = "p:k" ∧
    l3ForgetKeyOnError "p" "k" = "k" ∧
    l3ForgetKeyOnError "p" "k" ≠ flightDoKey "p" "k" ∧
    groupAfterL3Error true "p" "k" [flightDoKey "p" "k"] = [flightDoKey "p" "k"] ∧
    flightDoKey "p" "k" ∈ groupAfterL3Error true "p" "k" [flightDoKey "p" "k"] := by
  decide

/-- C10: with both tiers disabled, `put` returns nil for every oracle
outcome, attempting no tier write — the combined-error path is
unreachable. -/
theorem C10_put_noop_when_disabled (l1SetOk : Bool)
    (marshal l2Set : Except Nat Unit) :
    put false false l1SetOk marshal l2Set = ⟨none, false, false⟩ :=
  rfl

end Fly
